import Mathlib

/-!
Verification development for a browser chat client with client-side CSV/JSON
analytics tools (services/dataTools.js, services/gemini.js, components/Chat.js).

JavaScript values flowing through the tool layer are modelled by the inductive
`JVal` below (strings, numbers as exact rationals, booleans, null, arrays,
objects as insertion-ordered association lists).  External effects (the
`Math.sqrt` double operation, the `/api/generate-image` fetch, `Date` parsing)
are modelled as parameters collected in `StatsEnv`.
-/

set_option maxRecDepth 4000

namespace ChatApp

/-- JavaScript value: string, number (modelled exactly as a rational), boolean,
null, array, or object (insertion-ordered field list, as JS preserves
insertion order for string keys). -/
inductive JVal where
  | str (s : String)
  | num (q : ℚ)
  | bool (b : Bool)
  | null
  | arr (xs : List JVal)
  | obj (fs : List (String × JVal))
  deriving Repr

/-- JS truthiness: `''`, `0`, `false`, `null`/`undefined` are falsy; arrays and
objects are always truthy.  (`NaN` never arises as a stored value in this
model: failed numeric parses are represented by `Option.none` at use sites.) -/
def truthy : JVal → Bool
  | .str s => s ≠ ""
  | .num q => q ≠ 0
  | .bool b => b
  | .null => false
  | .arr _ => true
  | .obj _ => true

/-- Truthiness of an optional value (`none` models JS `undefined`). -/
def truthyO : Option JVal → Bool
  | none => false
  | some v => truthy v

/-- A row object: column name → cell value, insertion ordered. -/
abbrev Row := List (String × JVal)

/-- Property lookup on an object/row: first binding wins (JS objects have
unique keys; our insert below keeps that invariant, so first = only). -/
def rowLookup : Row → String → Option JVal
  | [], _ => none
  | (k, v) :: t, k' => if k' = k then some v else rowLookup t k'

/-- The keys of a row object, in property order. -/
def rowKeys (r : Row) : List String := r.map Prod.fst

/-- JS property assignment `obj[k] = v`: overwrite in place if the key exists
(property order keeps the first-insertion position), else append. -/
def objInsert (r : Row) (k : String) (v : JVal) : Row :=
  if r.any (fun p => p.1 = k) then
    r.map (fun p => if p.1 = k then (k, v) else p)
  else
    r ++ [(k, v)]

/-- Field access on a `JVal` known to be an object (`undefined` otherwise). -/
def objGet (v : JVal) (k : String) : Option JVal :=
  match v with
  | .obj fs => rowLookup fs k
  | _ => none

-- ── JS number parsing ─────────────────────────────────────────────────────────

/-- Digits of a decimal prefix. -/
def takeDigits : List Char → List Char × List Char
  | [] => ([], [])
  | c :: t =>
    if c.isDigit then
      let (ds, rest) := takeDigits t
      (c :: ds, rest)
    else ([], c :: t)

/-- Value of a digit list (most significant first). -/
def digitsVal (ds : List Char) : ℕ :=
  ds.foldl (fun acc c => 10 * acc + (c.toNat - '0'.toNat)) 0

/-- Decimal fraction value of a digit list: `digits / 10^len`. -/
def fracVal (ds : List Char) : ℚ :=
  (digitsVal ds : ℚ) / ((10 : ℚ) ^ ds.length)

/-- Model of JS `parseFloat` on a string: skip leading whitespace, optional
sign, then a decimal literal `digits[.digits]`; `none` models `NaN`.
(Exponent suffixes and `Infinity`, which never occur in this repository's
data paths, are not modelled.) -/
def parseFloatStr (s : String) : Option ℚ :=
  let cs := s.data.dropWhile (fun c => c.isWhitespace)
  let (neg, cs) : Bool × List Char :=
    match cs with
    | '-' :: t => (true, t)
    | '+' :: t => (false, t)
    | _ => (false, cs)
  let (ip, rest) := takeDigits cs
  match ip, rest with
  | [], '.' :: t =>
      let (fp, _) := takeDigits t
      if fp = [] then none
      else some ((if neg then -1 else 1) * fracVal fp)
  | [], _ => none
  | _, '.' :: t =>
      let (fp, _) := takeDigits t
      some ((if neg then -1 else 1) * ((digitsVal ip : ℚ) + fracVal fp))
  | _, _ => some ((if neg then -1 else 1) * (digitsVal ip : ℚ))

/-- Model of JS `parseFloat` applied to a cell value.  Row cells in this
repository are strings (from the CSV/JSON loaders), numbers, or `null`
(the `engagement` column); `parseFloat` of `null`/booleans/objects is `NaN`. -/
def jsParseFloat : JVal → Option ℚ
  | .str s => parseFloatStr s
  | .num q => some q
  | _ => none

/-- JS `Number.prototype.toString` for the rationals produced by this code
base (finite decimals).  Used only to model string coercion of keys; an
injective stand-in for JS number formatting. -/
def numToString (q : ℚ) : String :=
  if q.den = 1 then toString q.num else toString q.num ++ "/" ++ toString q.den

mutual

/-- Model of JS `String(v)` coercion for the values that reach it here. -/
def jsString : JVal → String
  | .str s => s
  | .num q => numToString q
  | .bool b => if b then "true" else "false"
  | .null => "null"
  | .arr xs => String.intercalate "," (jsStringArr xs)
  | .obj _ => "[object Object]"

/-- Elements of an array under `String(...)`/`Array.prototype.join`:
`null` (and `undefined`) become the empty string. -/
def jsStringArr : List JVal → List String
  | [] => []
  | .null :: t => "" :: jsStringArr t
  | v :: t => jsString v :: jsStringArr t

end

/-- JS `Math.round`: round half toward +∞. -/
def jsMathRound (q : ℚ) : ℤ := ⌊q + 1/2⌋

/-- JS `(+x.toFixed(4))`: round to 4 decimal places, half away from zero. -/
def jsToFixed4 (q : ℚ) : ℚ :=
  if 0 ≤ q then (⌊q * 10000 + 1/2⌋ : ℚ) / 10000
  else -((⌊-q * 10000 + 1/2⌋ : ℚ) / 10000)

/-- JS `(+x.toFixed(6))`: round to 6 decimal places, half away from zero. -/
def jsToFixed6 (q : ℚ) : ℚ :=
  if 0 ≤ q then (⌊q * 1000000 + 1/2⌋ : ℚ) / 1000000
  else -((⌊-q * 1000000 + 1/2⌋ : ℚ) / 1000000)

-- ── CSV parsing (services/dataTools.js: parseLine / parseCsvToRows) ──────────

/-- Character loop of `parseLine`: toggle `inQuotes` on `"`, split on `,`
only outside quotes, `trim` each field. -/
def parseLineAux : List Char → Bool → List Char → List String
  | [], _, current => [(String.mk current.reverse).trim]
  | c :: rest, inQuotes, current =>
    if c = '"' then parseLineAux rest (!inQuotes) current
    else if c = ',' ∧ !inQuotes then
      (String.mk current.reverse).trim :: parseLineAux rest inQuotes []
    else parseLineAux rest inQuotes (c :: current)

/-- `parseLine(line)`: split a CSV line on commas, respecting quoted fields. -/
def parseLine (line : String) : List String :=
  parseLineAux line.data false []

/-- `.replace(/^"|"$/g, '')`: strip one leading and one trailing quote. -/
def stripQuotes (s : String) : String :=
  let cs := s.data
  let cs := match cs with
    | '"' :: t => t
    | l => l
  let cs := match cs.reverse with
    | '"' :: t => t.reverse
    | _ => cs
  String.mk cs

/-- `headers.forEach((h, i) => { obj[h] = (vals[i] || '').replace(/^"|"$/g, ''); })`
starting from object `r` at index `i`. -/
def mkRowAux (r : Row) (i : ℕ) : List String → List String → Row
  | [], _ => r
  | h :: t, vals =>
      mkRowAux (objInsert r h (.str (stripQuotes (vals.getD i "")))) (i + 1) t vals

/-- Build one row object from the header list and the parsed field values. -/
def mkRow (headers vals : List String) : Row := mkRowAux [] 0 headers vals

/-- `text.split('\n').filter(l => l.trim())`. -/
def nonBlankLines (text : String) : List String :=
  (text.splitOn "\n").filter (fun l => l.trim ≠ "")

/-- `parseCsvToRows` (services/dataTools.js): header line plus one row object
per data line; fewer than two non-blank lines yields empty headers and rows. -/
def parseCsvToRows (text : String) : List String × List Row :=
  let lines := nonBlankLines text
  match lines with
  | [] => ([], [])
  | [_] => ([], [])
  | hline :: dataLines =>
      let headers := (parseLine hline).map stripQuotes
      let rows := dataLines.map (fun line => mkRow headers (parseLine line))
      (headers, rows)

-- ── enrichWithEngagement (services/dataTools.js, current copy) ───────────────

/-- Case-insensitive substring test, modelling `/pat/i.test(h)` for a literal
pattern (`pat` given lowercased). -/
def regexTestCI (pat : String) (h : String) : Bool :=
  let hc := h.toLower.data
  (List.range (hc.length + 1)).any (fun i => pat.data.isPrefixOf (hc.drop i))

/-- The per-row body of `enrichWithEngagement`:
`{...r, engagement: likes/views to 6 decimals when both parse and views > 0, else null}`. -/
def engagementCell (likeCol viewCol : String) (r : Row) : JVal :=
  match jsParseFloat ((rowLookup r likeCol).getD .null),
        jsParseFloat ((rowLookup r viewCol).getD .null) with
  | some likes, some views =>
      if 0 < views then .num (jsToFixed6 (likes / views)) else .null
  | _, _ => .null

/-- `enrichWithEngagement(rows, headers)` (services/dataTools.js): adds an
`engagement` column when a `likeCount`-like and `viewCount`-like header both
exist and the column is not already present. -/
def enrichWithEngagement (rows : List Row) (headers : List String) :
    List Row × List String :=
  if rows.isEmpty then (rows, headers)
  else
    match headers.find? (regexTestCI "likecount"),
          headers.find? (regexTestCI "viewcount") with
    | some likeCol, some viewCol =>
        if "engagement" ∈ headers then (rows, headers)
        else
          (rows.map (fun r => objInsert r "engagement" (engagementCell likeCol viewCol r)),
           headers ++ ["engagement"])
    | _, _ => (rows, headers)

-- ── Column resolution and math helpers (services/dataTools.js) ───────────────

/-- `norm` inside `resolveCol`: lowercase and remove whitespace, `_`, `-`. -/
def normCol (s : String) : String :=
  String.mk (s.toLower.data.filter (fun c => ¬ (c.isWhitespace ∨ c = '_' ∨ c = '-')))

/-- `resolveCol(rows, name)`: exact header match, else case/punctuation
insensitive match, else the literal name.  The argument value comes from the
model and may be any JS value (`none` models `undefined`); when it is truthy
but not a string, `name.toLowerCase()` throws a `TypeError`, modelled by
`Except.error`. -/
def resolveCol (rows : List Row) (name : Option JVal) :
    Except Unit (Option JVal) :=
  if rows.isEmpty ∨ ¬ truthyO name then .ok name
  else
    let keys := rowKeys (rows.headD [])
    match name with
    | some (.str s) =>
        if s ∈ keys then .ok (some (.str s))
        else
          match keys.find? (fun k => normCol k = normCol s) with
          | some k => .ok (some (.str k))
          | none => .ok (some (.str s))
    | _ => .error ()

/-- Property read `r[col]` where `col` is the (possibly non-string) resolved
column value; JS coerces the key to a string. -/
def rowGetK (r : Row) (col : Option JVal) : Option JVal :=
  match col with
  | none => none
  | some v => rowLookup r (jsString v)

/-- String interpolation `${col}` of a possibly-undefined column value. -/
def interpK : Option JVal → String
  | none => "undefined"
  | some v => jsString v

/-- `numericValues(rows, col)`: `parseFloat` every cell, keep the non-`NaN`s. -/
def numericValues (rows : List Row) (col : Option JVal) : List ℚ :=
  rows.filterMap (fun r => jsParseFloat ((rowGetK r col).getD .null))

/-- `median(sorted)` on an already-sorted list. -/
def medianOf (sorted : List ℚ) : ℚ :=
  if sorted.length % 2 = 0 then
    (sorted.getD (sorted.length / 2 - 1) 0 + sorted.getD (sorted.length / 2) 0) / 2
  else sorted.getD (sorted.length / 2) 0

/-- `fmt = (n) => +n.toFixed(4)`. -/
def fmt (q : ℚ) : ℚ := jsToFixed4 q

/-- JS `Math.min(...vals)` on a non-empty list. -/
def jsMin (vals : List ℚ) : ℚ :=
  match vals with
  | [] => 0
  | v :: t => t.foldl min v

/-- JS `Math.max(...vals)` on a non-empty list. -/
def jsMax (vals : List ℚ) : ℚ :=
  match vals with
  | [] => 0
  | v :: t => t.foldl max v

-- ── Stable sort (Array.prototype.sort, stable per ES2019) ────────────────────

/-- Insert `x` before the first element `y` with `le x y` (keeps earlier
elements first on ties, i.e. stability). -/
def insertStable (le : α → α → Bool) (x : α) : List α → List α
  | [] => [x]
  | y :: t => if le x y then x :: y :: t else y :: insertStable le x t

/-- Stable sort modelling `Array.prototype.sort(cmp)` via `le a b ↔ cmp(a,b) ≤ 0`;
agrees with the engine's stable sort whenever the comparator is consistent. -/
def jsSort (le : α → α → Bool) : List α → List α
  | [] => []
  | a :: t => insertStable le a (jsSort le t)

/-- `slice(0, n)` of a list: a negative end counts from the end. -/
def jsSliceTo (n : ℤ) (l : List α) : List α :=
  if n < 0 then l.take (max ((l.length : ℤ) + n) 0).toNat else l.take n.toNat

/-- `ToIntegerOrInfinity` coercion used by `slice` for the values reaching it
here (numbers truncate toward zero, numeric strings parse, else 0). -/
def jsToInt : JVal → ℤ
  | .num q => if 0 ≤ q then ⌊q⌋ else -⌊-q⌋
  | .str s => match parseFloatStr s with
      | some q => if 0 ≤ q then ⌊q⌋ else -⌊-q⌋
      | none => 0
  | .bool b => if b then 1 else 0
  | _ => 0

-- ── Tool executor (services/dataTools.js: executeTool) ───────────────────────

/-- The `rows` argument of `executeTool`; `Array.isArray(rows) ? rows : []`
replaces any non-array by the empty list. -/
inductive RowsArg where
  | arrRows (rs : List Row)
  | nonArray
  deriving Repr

/-- `const safeRows = Array.isArray(rows) ? rows : [];` -/
def safeRowsOf : RowsArg → List Row
  | .arrRows rs => rs
  | .nonArray => []

/-- Outcome of the `/api/generate-image` fetch: a network/parse failure with
its message, or a response with its `ok` flag and JSON body fields. -/
inductive ImageOutcome where
  | netErr (msg : String)
  | resp (ok : Bool) (mimeType data url fileName : String)
  deriving Repr

/-- The `context` argument of `executeTool` (anchor image from the chat UI). -/
structure ToolCtx where
  anchorImage : Option String := none
  anchorMimeType : Option String := none

/-- External behaviour the executor depends on: `Math.sqrt` (an exactly
modelled double-valued function is impossible over ℚ, so it is a parameter,
constrained by bounds where a claim needs its value), the image endpoint,
and `new Date(x).getTime()`. -/
structure StatsEnv where
  sqrtQ : ℚ → ℚ
  imageApi : ImageOutcome := .netErr ""
  dateNum : JVal → ℚ := fun _ => 0

/-- Tool arguments: the fields of the `args` object Gemini supplies. -/
abbrev Args := List (String × JVal)

/-- `args.k` (undefined when absent). -/
def argGet (args : Args) (k : String) : Option JVal := rowLookup args k

/-- A JS property value for a possibly-undefined expression (`undefined` and
`null` are both modelled as `.null` when stored). -/
def optVal (o : Option JVal) : JVal := o.getD .null

/-- `String(v || '')` -/
def strOfTruthy (o : Option JVal) : String :=
  match o with
  | some v => if truthy v then jsString v else ""
  | none => ""

/-- `s.includes(pat)` on strings. -/
def strIncludes (s pat : String) : Bool :=
  (List.range (s.data.length + 1)).any (fun i => pat.data.isPrefixOf (s.data.drop i))

/-- `/w1.?w2/i.test(h)`: substring match of `w1`, one optional character,
then `w2` (patterns given lowercased). -/
def matchDotOptCI (w1 w2 : String) (h : String) : Bool :=
  let hc := h.toLower.data
  (List.range (hc.length + 1)).any (fun i =>
    let t := hc.drop i
    w1.data.isPrefixOf t ∧
      (w2.data.isPrefixOf (t.drop w1.data.length) ∨
       w2.data.isPrefixOf (t.drop (w1.data.length + 1))))

/-- `/^pat$/i.test(h)` for a literal pattern (given lowercased). -/
def anchoredCI (pat : String) (h : String) : Bool := h.toLower = pat

/-- `^w1\s*w2$` against an already-lowercased query. -/
def twoWordExact (w1 w2 : String) (q : String) : Bool :=
  w1.data.isPrefixOf q.data ∧
    (q.data.drop w1.data.length).dropWhile Char.isWhitespace = w2.data

/-- `^w1\s*w2` (no end anchor) against an already-lowercased query. -/
def twoWordAtStart (w1 w2 : String) (q : String) : Bool :=
  w1.data.isPrefixOf q.data ∧
    w2.data.isPrefixOf ((q.data.drop w1.data.length).dropWhile Char.isWhitespace)

/-- `/^(first|1st|one)$/i` -/
def matchFirstQ (q : String) : Bool := q = "first" ∨ q = "1st" ∨ q = "one"

/-- `/^(last|latest)$/i` -/
def matchLastQ (q : String) : Bool := q = "last" ∨ q = "latest"

/-- `/^(most\s*viewed|most\s*popular|top\s*video|highest\s*views)$/i` -/
def matchMostViewedQ (q : String) : Bool :=
  twoWordExact "most" "viewed" q ∨ twoWordExact "most" "popular" q ∨
  twoWordExact "top" "video" q ∨ twoWordExact "highest" "views" q

/-- `/^(most\s*liked|most\s*loved|highest\s*likes|top\s*liked|most\s*like)/i` -/
def matchMostLikedQ (q : String) : Bool :=
  twoWordAtStart "most" "liked" q ∨ twoWordAtStart "most" "loved" q ∨
  twoWordAtStart "highest" "likes" q ∨ twoWordAtStart "top" "liked" q ∨
  twoWordAtStart "most" "like" q

/-- `safeRows.reduce((max, r) => rX > maxX ? r : max)` with
`X = parseFloat(r[col]) || 0`, on a non-empty list. -/
def reduceMaxBy (col : String) (rows : List Row) : Option Row :=
  match rows with
  | [] => none
  | r0 :: t =>
      some (t.foldl (fun mx r =>
        let mv := (jsParseFloat ((rowLookup mx col).getD .null)).getD 0
        let rv := (jsParseFloat ((rowLookup r col).getD .null)).getD 0
        if mv < rv then r else mx) r0)

/-- `(args.title || '').toLowerCase().trim()`: the empty string when the
argument is falsy, lowercased/trimmed when a string, and a thrown
`TypeError` (`.error`) when a truthy non-string reaches `.toLowerCase()`. -/
def titleQueryOf (o : Option JVal) : Except Unit String :=
  match o with
  | none => .ok ""
  | some v =>
      if truthy v then
        match v with
        | .str s => .ok (s.toLower.trim)
        | _ => .error ()
      else .ok ""

/-- Shared body of `compute_column_stats` / `compute_stats_json`
(services/dataTools.js): resolve the column, collect numeric values, and
report `{count, mean, median, std, min, max}` to 4 decimal places, or an
error naming the available columns.  `keyName`/`wordCol`/`wordField` vary
the result key and error wording between the two cases. -/
def statsBody (env : StatsEnv) (keyName wordPlace : String)
    (safeRows : List Row) (availableHeaders : List String) (nameArg : Option JVal) :
    Except Unit JVal := do
  let col ← resolveCol safeRows nameArg
  let vals := numericValues safeRows col
  if vals.isEmpty then
    return .obj [("error", .str ("No numeric values found in " ++ wordPlace ++ " \"" ++
      interpK col ++ "\". Available columns: " ++ String.intercalate ", " availableHeaders))]
  let mean : ℚ := (vals.foldl (· + ·) (0 : ℚ)) / vals.length
  let sorted := jsSort (fun a b => a ≤ b) vals
  let variance : ℚ := (vals.foldl (fun a b => a + (b - mean) ^ 2) (0 : ℚ)) / vals.length
  return .obj [(keyName, optVal col),
    ("count", .num vals.length),
    ("mean", .num (fmt mean)),
    ("median", .num (fmt (medianOf sorted))),
    ("std", .num (fmt (env.sqrtQ variance))),
    ("min", .num (jsMin vals)),
    ("max", .num (jsMax vals))]

/-- `executeTool(toolName, args, rows, context)` (services/dataTools.js,
current copy).  `Except.error ()` models a thrown `TypeError` (which can
happen when a truthy non-string argument reaches `name.toLowerCase()`). -/
def executeTool (toolName : String) (args : Args) (rows : RowsArg)
    (context : ToolCtx) (env : StatsEnv) : Except Unit JVal :=
  let safeRows := safeRowsOf rows
  let availableHeaders := if safeRows.isEmpty then [] else rowKeys (safeRows.headD [])
  match toolName with
  | "compute_column_stats" =>
      statsBody env "column" "column" safeRows availableHeaders (argGet args "column")
  | "get_value_counts" => do
      let col ← resolveCol safeRows (argGet args "column")
      let topN : JVal := if truthyO (argGet args "top_n") then
          (argGet args "top_n").getD .null else .num 10
      let counts := safeRows.foldl (fun cts r =>
        match rowGetK r col with
        | none => cts
        | some (.str "") => cts
        | some v =>
            let k := jsString v
            if cts.any (fun p => p.1 = k) then
              cts.map (fun p => if p.1 = k then (p.1, p.2 + 1) else p)
            else cts ++ [(k, 1)]) ([] : List (String × ℕ))
      let sorted := jsSliceTo (jsToInt topN)
        (jsSort (fun a b => b.2 ≤ a.2) counts)
      return .obj [("column", optVal col),
        ("total_rows", .num safeRows.length),
        ("value_counts", .obj (sorted.map (fun p => (p.1, .num p.2))))]
  | "get_top_items" => do
      let rc ← resolveCol safeRows (argGet args "sort_column")
      let sortCol := if truthyO rc then rc else argGet args "sort_column"
      let n : JVal := if truthyO (argGet args "n") then
          (argGet args "n").getD .null else .num 10
      let asc : Bool :=
        match argGet args "ascending" with
        | none => false
        | some .null => false
        | some v => truthy v
      let textCol := (availableHeaders.find? (anchoredCI "title")).orElse (fun _ =>
        (availableHeaders.find? (anchoredCI "text")).orElse (fun _ =>
          availableHeaders.find? (fun h =>
            regexTestCI "text" h ∨ regexTestCI "content" h ∨
            regexTestCI "tweet" h ∨ regexTestCI "body" h)))
      let favCol := (availableHeaders.find? (matchDotOptCI "favorite" "count")).orElse
        (fun _ => availableHeaders.find? (matchDotOptCI "like" "count"))
      let viewCol := availableHeaders.find? (matchDotOptCI "view" "count")
      let engCol : Option String :=
        if "engagement" ∈ availableHeaders then some "engagement" else none
      let sorted := jsSort (fun a b =>
        match jsParseFloat ((rowGetK a sortCol).getD .null),
              jsParseFloat ((rowGetK b sortCol).getD .null) with
        | some av, some bv => if asc then av ≤ bv else bv ≤ av
        | _, _ => true) safeRows
      let topRows := (jsSliceTo (jsToInt n) sorted).enum.map (fun (i, r) =>
        let out : Row := [("rank", .num (i + 1))]
        let out := match textCol with
          | some tc => objInsert out "text"
              (.str ((strOfTruthy (rowLookup r tc)).take 150))
          | none => out
        let out := match favCol with
          | some fc => objInsert out fc (optVal (rowLookup r fc))
          | none => out
        let out := match viewCol with
          | some vc => objInsert out vc (optVal (rowLookup r vc))
          | none => out
        match engCol with
        | some _ => objInsert out "engagement" (optVal (rowLookup r "engagement"))
        | none => out)
      if topRows.isEmpty then
        return .obj [("error", .str ("No rows found. Column \"" ++ interpK sortCol ++
          "\" may not exist. Available: " ++ String.intercalate ", " availableHeaders))]
      return .obj [("sort_column", optVal sortCol),
        ("direction", .str (if asc then "ascending (lowest first)"
                            else "descending (highest first)")),
        ("count", .num topRows.length),
        ("tweets", .arr (topRows.map JVal.obj))]
  | "generateImage" =>
      let prompt := (strOfTruthy (argGet args "prompt")).trim
      if prompt = "" then .ok (.obj [("error", .str "prompt is required for generateImage")])
      else
        let anchor : JVal :=
          if truthyO (argGet args "anchor_image") then (argGet args "anchor_image").getD .null
          else match context.anchorImage with
            | some s => if s ≠ "" then .str s else .null
            | none => .null
        match env.imageApi with
        | .netErr m => .ok (.obj [("error", .str ("Image generation failed: " ++ m))])
        | .resp false _ _ _ _ =>
            .ok (.obj [("error", .str "Image generation failed: Backend image proxy failed")])
        | .resp true mimeType data url fileName =>
            .ok (.obj [("inlineData", .obj [("mimeType", .str mimeType), ("data", .str data)]),
              ("_chartType", .str "generatedImage"),
              ("prompt", .str prompt),
              ("anchorUsed", .bool (truthy anchor)),
              ("url", .str url),
              ("fileName", .str fileName),
              ("message", .str "Generated image preview ready.")])
  | "plot_metric_vs_time" => do
      let metricCol ← resolveCol safeRows (argGet args "metric")
      let timeCol ← resolveCol safeRows (argGet args "time_column")
      let dataPoints := safeRows.filterMap (fun r =>
        let time := rowGetK r timeCol
        match jsParseFloat ((rowGetK r metricCol).getD .null) with
        | some val => if truthyO time then some ((time.getD .null), val) else none
        | none => none)
      let dataPoints := jsSort (fun a b => env.dateNum a.1 ≤ env.dateNum b.1) dataPoints
      if dataPoints.isEmpty then
        return .obj [("error", .str ("No valid data points for \"" ++ interpK metricCol ++
          "\" vs \"" ++ interpK timeCol ++ "\". Available columns: " ++
          String.intercalate ", " availableHeaders))]
      return .obj [("_chartType", .str "timeSeries"),
        ("metric", optVal metricCol),
        ("timeColumn", optVal timeCol),
        ("data", .arr (dataPoints.map (fun p =>
          JVal.obj (objInsert [("name", p.1)] (interpK metricCol) (.num p.2))))),
        ("count", .num dataPoints.length)]
  | "play_video" => do
      let titleQuery : String ← titleQueryOf (argGet args "title")
      let titleCol := availableHeaders.find? (anchoredCI "title")
      let urlCol := availableHeaders.find? (anchoredCI "videourl")
      let thumbCol := availableHeaders.find? (anchoredCI "thumbnailurl")
      let viewCol := availableHeaders.find? (anchoredCI "viewcount")
      let likeCol := availableHeaders.find? (matchDotOptCI "like" "count")
      match titleCol, urlCol with
      | some titleCol, some urlCol =>
        let bestMatch : Option Row :=
          if matchFirstQ titleQuery ∧ ¬ safeRows.isEmpty then safeRows.head?
          else if matchLastQ titleQuery ∧ ¬ safeRows.isEmpty then safeRows.getLast?
          else if matchMostViewedQ titleQuery then
            match viewCol with
            | some vc => if ¬ safeRows.isEmpty then reduceMaxBy vc safeRows else none
            | none => if ¬ safeRows.isEmpty then safeRows.head? else none
          else if matchMostLikedQ titleQuery then
            match likeCol with
            | some lc => if ¬ safeRows.isEmpty then reduceMaxBy lc safeRows else none
            | none => if ¬ safeRows.isEmpty then safeRows.head? else none
          else
            safeRows.find? (fun r =>
              strIncludes (strOfTruthy (rowLookup r titleCol)).toLower titleQuery)
        match bestMatch with
        | some bm =>
          if ¬ truthyO (rowLookup bm titleCol) then
            return .obj [("error", .str ("No video found matching \"" ++
              interpK (argGet args "title") ++ "\". Available: " ++
              String.intercalate ", "
                (jsStringArr ((safeRows.take 3).map (fun r => optVal (rowLookup r titleCol))))))]
          else
            let videoTitle := (rowLookup bm titleCol).getD .null
            let videoUrl := rowLookup bm urlCol
            if ¬ truthyO videoUrl then
              return .obj [("error", .str ("Video \"" ++ jsString videoTitle ++
                "\" found but missing URL."))]
            else
              return .obj [("_playVideo", .bool true),
                ("title", videoTitle),
                ("thumbnailUrl", match thumbCol with
                  | some tc => optVal (rowLookup bm tc)
                  | none => .null),
                ("url", optVal videoUrl),
                ("message", .str ("Playing: \"" ++ jsString videoTitle ++ "\""))]
        | none =>
          return .obj [("error", .str ("No video found matching \"" ++
            interpK (argGet args "title") ++ "\". Available: " ++
            String.intercalate ", "
              (jsStringArr ((safeRows.take 3).map (fun r => optVal (rowLookup r titleCol))))))]
      | _, _ =>
        return .obj [("error", .str ("Cannot find required columns. Have: " ++
          String.intercalate ", " availableHeaders))]
  | "compute_stats_json" =>
      statsBody env "field" "field" safeRows availableHeaders (argGet args "field")
  | _ => .ok (.obj [("error", .str ("Unknown tool: " ++ toolName))])

-- ── Older executeTool copy (services, pre-rename file): compute_stats_json ───

/-- `compute_stats_json` case of the older `executeTool` copy shipped next to
`gemini.js`: keyword-mapped field, 2-decimal `Math.round` on mean/std,
unrounded median, and an error message that does not list the columns. -/
def computeStatsJsonV1 (args : Args) (rows : List Row) (env : StatsEnv) : JVal :=
  let statField :=
    (match argGet args "field" with
     | some v => if truthy v then jsString v else "viewCount"
     | none => "viewCount").toLower
  let statField :=
    if strIncludes statField "view" then "viewCount"
    else if strIncludes statField "like" then "likeCount"
    else if strIncludes statField "comment" then "commentCount"
    else if strIncludes statField "engage" then "engagement"
    else statField
  let values := rows.filterMap (fun r => jsParseFloat ((rowLookup r statField).getD .null))
  if values.isEmpty then .obj [("error", .str ("No numeric data for " ++ statField))]
  else
    let values := jsSort (fun a b => a ≤ b) values
    let sum : ℚ := values.foldl (· + ·) 0
    let mean : ℚ := sum / values.length
    let median : ℚ :=
      if values.length % 2 = 0 then
        (values.getD (values.length / 2 - 1) 0 + values.getD (values.length / 2) 0) / 2
      else values.getD (values.length / 2) 0
    let variance : ℚ := (values.foldl (fun a v => a + (v - mean) ^ 2) 0) / values.length
    let std := env.sqrtQ variance
    .obj [("field", .str statField),
      ("count", .num values.length),
      ("mean", .num ((jsMathRound (mean * 100) : ℚ) / 100)),
      ("median", .num median),
      ("std", .num ((jsMathRound (std * 100) : ℚ) / 100)),
      ("min", .num (values.headD 0)),
      ("max", .num (values.getLastD 0))]

-- ── System prompt cache (services/gemini.js: loadSystemPrompt) ───────────────

/-- One outcome of `fetch('/prompt_chat.txt')`: a thrown failure, or a
response with its `ok` flag and text body. -/
inductive FetchOutcome where
  | fails
  | resp (ok : Bool) (body : String)
  deriving Repr

/-- One call to `loadSystemPrompt()` given the module-level `cachedPrompt`
(`none` models the initial `null`): returns the produced instruction, the new
cache value, and whether a fetch was performed.  The guard is JS truthiness:
a cached empty string does not short-circuit. -/
def loadSystemPromptCall (f : FetchOutcome) (cache : Option String) :
    String × Option String × Bool :=
  let hit : Bool := match cache with
    | some s => s ≠ ""
    | none => false
  if hit then (cache.getD "", cache, false)
  else
    match f with
    | .fails => ("", some "", true)
    | .resp ok body =>
        let v := if ok then body.trim else ""
        (v, some v, true)

/-- `n` successive calls to `loadSystemPrompt` in one process, the `i`-th
fetch (if the call fetches) behaving as `f i`; returns the final cache and
the per-call `(result, didFetch)` trace. -/
def runLoadAux (f : ℕ → FetchOutcome) : ℕ → Option String → ℕ →
    Option String × List (String × Bool)
  | _, cache, 0 => (cache, [])
  | i, cache, n + 1 =>
      let (r, c, df) := loadSystemPromptCall (f i) cache
      let (cf, rest) := runLoadAux f (i + 1) c n
      (cf, (r, df) :: rest)

/-- A fresh process (`cachedPrompt = null`) making `n` calls. -/
def runLoad (f : ℕ → FetchOutcome) (n : ℕ) : Option String × List (String × Bool) :=
  runLoadAux f 0 none n

/-- Number of fetches performed in a call trace. -/
def fetchCount (calls : List (String × Bool)) : ℕ := (calls.filter (fun c => c.2)).length

-- ── Tool-calling orchestrator (services/gemini.js: chatWithCsvTools) ─────────

/-- A part of a model response: a function call or plain text. -/
inductive RPart where
  | fcPart (name : String) (args : Args)
  | textPart (s : String)

/-- A model response: its content parts and the `response.text()` value. -/
structure ModelResp where
  parts : List RPart
  text : String

/-- `parts.find((p) => p.functionCall)`. -/
def findFuncCall (resp : ModelResp) : Option (String × Args) :=
  resp.parts.findSome? (fun p =>
    match p with
    | .fcPart n a => some (n, a)
    | .textPart _ => none)

/-- `const { inlineData, ...geminiSafeResult } = toolResult || {};`
Rest-destructuring: objects lose the `inlineData` field; a falsy value gives
`{}`; strings and arrays spread to index-keyed objects; other primitives
have no own enumerable properties. -/
def sanitizeResult : JVal → JVal
  | .obj fs => .obj (fs.filter (fun p => p.1 ≠ "inlineData"))
  | .str s => .obj (s.data.enum.map (fun p => (toString p.1, .str (String.mk [p.2]))))
  | .arr xs => .obj (xs.enum.map (fun p => (toString p.1, p.2)))
  | _ => .obj []

/-- One entry of the tool-call log: `{ name, args, result }` with the raw
executor result. -/
structure ToolCallRec where
  name : String
  args : Args
  result : JVal

/-- One function-response message relayed to the model:
`{ functionResponse: { name, response: { result } } }`. -/
structure SentFR where
  name : String
  result : JVal

/-- What `chatWithCsvTools` returns, plus the trace of function-response
messages actually sent to the model (`sent`, instrumentation added by the
embedding to state sanitization/round-trip properties). -/
structure TurnResult where
  text : String
  charts : List JVal
  toolCalls : List ToolCallRec
  sent : List SentFR

/-- The `for (let round = 0; round < 5; round++)` function-calling loop.
`fuel = 5 - round`; `oracle i` is the model's reply to the `i`-th
function-response message. -/
def csvLoopAux (exec : String → Args → JVal) (oracle : ℕ → ModelResp) :
    ℕ → ModelResp → List JVal → List ToolCallRec → List SentFR → TurnResult
  | 0, resp, charts, calls, sent => ⟨resp.text, charts, calls, sent⟩
  | fuel + 1, resp, charts, calls, sent =>
    match findFuncCall resp with
    | none => ⟨resp.text, charts, calls, sent⟩
    | some (name, args) =>
        let toolResult := exec name args
        let calls := calls ++ [⟨name, args, toolResult⟩]
        let charts :=
          if truthyO (objGet toolResult "_chartType") ∨ truthyO (objGet toolResult "_playVideo")
          then charts ++ [toolResult] else charts
        let safe := sanitizeResult toolResult
        let resp' := oracle sent.length
        let sent := sent ++ [⟨name, safe⟩]
        if truthyO (objGet safe "error") then ⟨resp'.text, charts, calls, sent⟩
        else csvLoopAux exec oracle fuel resp' charts calls sent

/-- `chatWithCsvTools` after the initial `sendMessage`: `r0` is the first
response, `exec` the client-side executor (`executeFn`), `oracle` the model's
replies to function responses. -/
def chatWithCsvTools (exec : String → Args → JVal) (r0 : ModelResp)
    (oracle : ℕ → ModelResp) : TurnResult :=
  csvLoopAux exec oracle 5 r0 [] [] []

/-- Chat.js `handleSend`: `toolCalls.length ? toolCalls : null` — what is
handed to `saveMessage` for persistence. -/
def persistedToolCalls (out : TurnResult) : Option (List ToolCallRec) :=
  if out.toolCalls.isEmpty then none else some out.toolCalls

-- ── Streaming consumer (components/Chat.js: handleSend, streaming path) ──────

/-- The three event kinds yielded by `streamChat`. -/
inductive StreamEvent where
  | textEv (s : String)
  | fullResponseEv (parts : List JVal)
  | groundingEv (data : JVal)

/-- The consumer's local state in `handleSend`. -/
structure StreamState where
  fullContent : String := ""
  structuredParts : Option (List JVal) := none
  groundingData : Option JVal := none

/-- Effect of applying one streamed chunk to the consumer state. -/
def applyChunk (st : StreamState) : StreamEvent → StreamState
  | .textEv s => { st with fullContent := st.fullContent ++ s }
  | .fullResponseEv ps => { st with structuredParts := some ps }
  | .groundingEv d => { st with groundingData := some d }

/-- Reading `abortRef.current` at the top of iteration `i` when the stop
button was pressed after `k` chunks were applied (`none`: never pressed). -/
def abortReads (stopAt : Option ℕ) (i : ℕ) : Bool :=
  match stopAt with
  | none => false
  | some k => k ≤ i

/-- `for await (const chunk of streamChat(...)) { if (abortRef.current) break; ... }` -/
def consumeStreamAux (stopAt : Option ℕ) : ℕ → StreamState → List StreamEvent → StreamState
  | _, st, [] => st
  | i, st, e :: rest =>
      if abortReads stopAt i then st
      else consumeStreamAux stopAt (i + 1) (applyChunk st e) rest

/-- Consume a whole stream from the initial state. -/
def consumeStream (events : List StreamEvent) (stopAt : Option ℕ) : StreamState :=
  consumeStreamAux stopAt 0 {} events

/-- `savedContent`: structured-part text joined by newlines when a
`fullResponse` arrived, else the accumulated streamed text; this is what
`saveMessage` persists for the assistant message. -/
def savedContent (st : StreamState) : String :=
  match st.structuredParts with
  | some ps =>
      String.intercalate "\n" (jsStringArr (ps.filterMap (fun p =>
        match objGet p "type" with
        | some (.str t) => if t = "text" then some (optVal (objGet p "text")) else none
        | _ => none)))
  | none => st.fullContent

-- ── Row-object lemmas ────────────────────────────────────────────────────────

/-- First-occurrence key deduplication, accumulating onto `ks`. -/
def dedupInto (ks : List String) : List String → List String
  | [] => ks
  | h :: t => dedupInto (if h ∈ ks then ks else ks ++ [h]) t

/-- Keys of a JS object built by successive assignments, in property order:
first occurrences, in order. -/
def dedupFirst (hs : List String) : List String := dedupInto [] hs

theorem rowLookup_isSome_iff (r : Row) (k : String) :
    (rowLookup r k).isSome = true ↔ k ∈ rowKeys r := by
  induction r with
  | nil => simp [rowLookup, rowKeys]
  | cons a t ih =>
      by_cases h : k = a.1
      · simp [rowLookup, rowKeys, h]
      · simp [rowLookup, rowKeys, h, ih]

theorem any_key_eq (r : Row) (k : String) :
    (r.any (fun p => p.1 = k)) = true ↔ k ∈ rowKeys r := by
  induction r with
  | nil => simp [rowKeys]
  | cons a t ih =>
      by_cases h : a.1 = k
      · simp [rowKeys, h]
      · simp only [List.any_cons, ih, rowKeys, List.map_cons, List.mem_cons]
        simp [h, Ne.symm h]

theorem rowLookup_replace_ne (t : Row) (k k' : String) (v : JVal) (hne : k' ≠ k) :
    rowLookup (t.map (fun p => if p.1 = k then (k, v) else p)) k' = rowLookup t k' := by
  induction t with
  | nil => rfl
  | cons a t ih =>
      by_cases hak : a.1 = k
      · rw [List.map_cons, if_pos hak]
        show (if k' = k then some v else _) = _
        rw [if_neg hne, ih, rowLookup, if_neg (hak ▸ hne)]
      · rw [List.map_cons, if_neg hak]
        show (if k' = a.1 then some a.2 else _) = _
        by_cases h : k' = a.1
        · rw [if_pos h, rowLookup, if_pos h]
        · rw [if_neg h, ih, rowLookup, if_neg h]

theorem rowLookup_replace_mem (t : Row) (k : String) (v : JVal) (hmem : k ∈ rowKeys t) :
    rowLookup (t.map (fun p => if p.1 = k then (k, v) else p)) k = some v := by
  induction t with
  | nil => simp [rowKeys] at hmem
  | cons a t ih =>
      by_cases hak : a.1 = k
      · rw [List.map_cons, if_pos hak]
        show (if k = k then some v else _) = _
        rw [if_pos rfl]
      · have hmt : k ∈ rowKeys t := by
          rcases List.mem_cons.mp hmem with h | h
          · exact absurd h.symm hak
          · exact h
        rw [List.map_cons, if_neg hak]
        show (if k = a.1 then some a.2
          else rowLookup (t.map (fun p => if p.1 = k then (k, v) else p)) k) = _
        rw [if_neg (fun h => hak h.symm), ih hmt]

theorem rowLookup_append_single (t : Row) (k k' : String) (v : JVal)
    (hnm : k ∉ rowKeys t) :
    rowLookup (t ++ [(k, v)]) k' = if k' = k then some v else rowLookup t k' := by
  induction t with
  | nil =>
      show (if k' = k then some v else rowLookup [] k') = _
      rfl
  | cons a t ih =>
      have hak : a.1 ≠ k := fun h => hnm (by simp [rowKeys, h])
      have hnt : k ∉ rowKeys t := fun h => hnm (by simp [rowKeys] at h ⊢; exact Or.inr h)
      rw [List.cons_append]
      show (if k' = a.1 then some a.2 else rowLookup (t ++ [(k, v)]) k') = _
      by_cases h : k' = a.1
      · have hk'k : k' ≠ k := fun he => hak (by rw [← h]; exact he)
        rw [if_pos h, if_neg hk'k]
        show _ = (if k' = a.1 then some a.2 else rowLookup t k')
        rw [if_pos h]
      · rw [if_neg h, ih hnt]
        by_cases hk : k' = k
        · rw [if_pos hk, if_pos hk]
        · rw [if_neg hk, if_neg hk]
          show _ = (if k' = a.1 then some a.2 else rowLookup t k')
          rw [if_neg h]

theorem rowLookup_objInsert (r : Row) (k k' : String) (v : JVal) :
    rowLookup (objInsert r k v) k' = if k' = k then some v else rowLookup r k' := by
  unfold objInsert
  by_cases hany : (r.any (fun p => p.1 = k)) = true
  · rw [if_pos hany]
    by_cases hk' : k' = k
    · rw [if_pos hk', hk']
      exact rowLookup_replace_mem r k v ((any_key_eq r k).mp hany)
    · rw [if_neg hk']
      exact rowLookup_replace_ne r k k' v hk'
  · rw [if_neg hany]
    exact rowLookup_append_single r k k' v (fun hm => hany ((any_key_eq r k).mpr hm))

theorem rowKeys_objInsert (r : Row) (k : String) (v : JVal) :
    rowKeys (objInsert r k v) =
      if k ∈ rowKeys r then rowKeys r else rowKeys r ++ [k] := by
  unfold objInsert
  by_cases hany : (r.any (fun p => p.1 = k)) = true
  · rw [if_pos hany, if_pos ((any_key_eq r k).mp hany)]
    unfold rowKeys
    rw [List.map_map]
    congr 1
    funext p
    by_cases h : p.1 = k <;> simp [h]
  · rw [if_neg hany, if_neg (fun hm => hany ((any_key_eq r k).mpr hm))]
    simp [rowKeys]

theorem rowKeys_mkRowAux (r : Row) (i : ℕ) (hs vs : List String) :
    rowKeys (mkRowAux r i hs vs) = dedupInto (rowKeys r) hs := by
  induction hs generalizing r i with
  | nil => rfl
  | cons h t ih =>
      show rowKeys (mkRowAux (objInsert r h _) (i + 1) t vs) = _
      rw [ih, dedupInto, rowKeys_objInsert]

theorem rowLookup_mkRowAux_notMem (r : Row) (i : ℕ) (hs vs : List String)
    (k : String) (hk : k ∉ hs) :
    rowLookup (mkRowAux r i hs vs) k = rowLookup r k := by
  induction hs generalizing r i with
  | nil => rfl
  | cons h t ih =>
      show rowLookup (mkRowAux (objInsert r h _) (i + 1) t vs) k = _
      rw [ih _ _ (fun hm => hk (List.mem_cons_of_mem _ hm)), rowLookup_objInsert,
        if_neg (fun he => hk (by rw [he]; exact List.mem_cons_self _ _))]

theorem rowLookup_mkRowAux_nodup (r : Row) (i : ℕ) (hs vs : List String)
    (hnd : hs.Nodup) (j : ℕ) (hj : j < hs.length) :
    rowLookup (mkRowAux r i hs vs) (hs.get ⟨j, hj⟩) =
      some (.str (stripQuotes (vs.getD (i + j) ""))) := by
  induction hs generalizing r i j with
  | nil => exact absurd hj (by simp)
  | cons h t ih =>
      rcases List.nodup_cons.mp hnd with ⟨hht, hndt⟩
      match j with
      | 0 =>
          show rowLookup (mkRowAux (objInsert r h (.str (stripQuotes (vs.getD i ""))))
            (i + 1) t vs) h = _
          rw [rowLookup_mkRowAux_notMem _ _ _ _ _ hht, rowLookup_objInsert, if_pos rfl,
            Nat.add_zero]
      | j + 1 =>
          have hj' : j < t.length := by simpa using hj
          show rowLookup (mkRowAux (objInsert r h _) (i + 1) t vs) (t.get ⟨j, hj'⟩) = _
          rw [ih _ _ hndt j hj']
          have he : i + 1 + j = i + (j + 1) := by omega
          rw [he]

theorem mem_dedupInto (ks hs : List String) (a : String) :
    a ∈ dedupInto ks hs ↔ a ∈ ks ∨ a ∈ hs := by
  induction hs generalizing ks with
  | nil => simp [dedupInto]
  | cons h t ih =>
      rw [dedupInto, ih]
      by_cases hm : h ∈ ks
      · rw [if_pos hm]
        constructor
        · rintro (x | x)
          · exact Or.inl x
          · exact Or.inr (List.mem_cons_of_mem _ x)
        · rintro (x | x)
          · exact Or.inl x
          · rcases List.mem_cons.mp x with rfl | x
            · exact Or.inl hm
            · exact Or.inr x
      · rw [if_neg hm]
        constructor
        · rintro (x | x)
          · rcases List.mem_append.mp x with x | x
            · exact Or.inl x
            · exact Or.inr (List.mem_cons.mpr (Or.inl (List.mem_singleton.mp x)))
          · exact Or.inr (List.mem_cons_of_mem _ x)
        · rintro (x | x)
          · exact Or.inl (List.mem_append.mpr (Or.inl x))
          · rcases List.mem_cons.mp x with rfl | x
            · exact Or.inl (List.mem_append.mpr (Or.inr (List.mem_singleton.mpr rfl)))
            · exact Or.inr x

theorem dedupInto_of_nodup (ks hs : List String) (hnd : hs.Nodup)
    (hdis : ∀ h ∈ hs, h ∉ ks) : dedupInto ks hs = ks ++ hs := by
  induction hs generalizing ks with
  | nil => simp [dedupInto]
  | cons h t ih =>
      rcases List.nodup_cons.mp hnd with ⟨hht, hndt⟩
      rw [dedupInto, if_neg (hdis h (List.mem_cons_self _ _)),
        ih _ hndt (fun x hx => by
          intro hm
          rcases List.mem_append.mp hm with hm | hm
          · exact hdis x (List.mem_cons_of_mem _ hx) hm
          · exact hht (List.mem_singleton.mp hm ▸ hx)),
        List.append_assoc, List.singleton_append]

theorem dedupFirst_of_nodup (hs : List String) (hnd : hs.Nodup) :
    dedupFirst hs = hs := by
  rw [dedupFirst, dedupInto_of_nodup _ _ hnd (by simp), List.nil_append]

-- ── Claim theorems: CSV parsing ──────────────────────────────────────────────

/-- C6: For all CSV inputs (in particular those whose quoted fields contain
commas or newlines), every row object produced by `parseCsvToRows` has one
value per header: its keys are exactly the header row's keys (first
occurrences), and when the headers are distinct its field count equals the
header row's field count. -/
theorem csv_row_field_count (text : String) :
    ∀ row ∈ (parseCsvToRows text).2,
      rowKeys row = dedupFirst (parseCsvToRows text).1 ∧
      ((parseCsvToRows text).1.Nodup →
        rowKeys row = (parseCsvToRows text).1 ∧
        row.length = (parseCsvToRows text).1.length) := by
  intro row hrow
  rcases hl : nonBlankLines text with _ | ⟨h1, _ | ⟨h2, tl⟩⟩
  · simp [parseCsvToRows, hl] at hrow
  · simp [parseCsvToRows, hl] at hrow
  · simp only [parseCsvToRows, hl] at hrow ⊢
    rcases List.mem_map.mp hrow with ⟨line, _, rfl⟩
    have hkeys : rowKeys (mkRow ((parseLine h1).map stripQuotes) (parseLine line)) =
        dedupFirst ((parseLine h1).map stripQuotes) := by
      rw [mkRow, rowKeys_mkRowAux]; rfl
    refine ⟨hkeys, fun hnd => ?_⟩
    have hk2 : rowKeys (mkRow ((parseLine h1).map stripQuotes) (parseLine line)) =
        (parseLine h1).map stripQuotes := by
      rw [hkeys]; exact dedupFirst_of_nodup _ hnd
    refine ⟨hk2, ?_⟩
    calc (mkRow ((parseLine h1).map stripQuotes) (parseLine line)).length
        = (rowKeys (mkRow ((parseLine h1).map stripQuotes) (parseLine line))).length := by
          rw [rowKeys, List.length_map]
      _ = ((parseLine h1).map stripQuotes).length := by rw [hk2]

/-- Sample CSV whose quoted field contains a comma. -/
def csvSample : String := "name,notes\n\"Doe, John\",hello"

/-- Witness for C6 at a CSV whose quoted field contains a comma. -/
theorem csv_row_field_count_witness :
    rowKeys ((parseCsvToRows csvSample).2.headD []) = (parseCsvToRows csvSample).1 ∧
    ((parseCsvToRows csvSample).2.headD []).length = (parseCsvToRows csvSample).1.length := by
  have hrows : (parseCsvToRows csvSample).2 =
      [[("name", JVal.str "Doe, John"), ("notes", JVal.str "hello")]] := by
    with_unfolding_all rfl
  have hmem : (parseCsvToRows csvSample).2.headD [] ∈ (parseCsvToRows csvSample).2 := by
    rw [hrows]; exact List.mem_singleton.mpr rfl
  have h := csv_row_field_count csvSample _ hmem
  have hh : (parseCsvToRows csvSample).1 = ["name", "notes"] := by
    with_unfolding_all rfl
  exact h.2 (by rw [hh]; decide)

/-- C8: Every row object of `parseCsvToRows` has exactly one entry per parsed
header (a present entry for each header, none for anything else — extra
fields on a line are dropped), a header with no corresponding field maps to
the quoted-stripped empty string via `vals[i] || ''`, and an input with
fewer than two non-blank lines yields empty headers and rows. -/
theorem csv_row_entries (text : String) :
    ((nonBlankLines text).length < 2 → parseCsvToRows text = ([], [])) ∧
    (∀ row ∈ (parseCsvToRows text).2,
      (∀ h ∈ (parseCsvToRows text).1, (rowLookup row h).isSome = true) ∧
      (∀ h, h ∉ (parseCsvToRows text).1 → rowLookup row h = none)) ∧
    (∀ headers vals, headers.Nodup → ∀ j (hj : j < headers.length),
      rowLookup (mkRow headers vals) (headers.get ⟨j, hj⟩) =
        some (.str (stripQuotes (vals.getD j "")))) := by
  refine ⟨?_, ?_, ?_⟩
  · intro hlen
    rcases hl : nonBlankLines text with _ | ⟨h1, _ | ⟨h2, tl⟩⟩
    · simp [parseCsvToRows, hl]
    · simp [parseCsvToRows, hl]
    · rw [hl] at hlen; simp at hlen; omega
  · intro row hrow
    rcases hl : nonBlankLines text with _ | ⟨h1, _ | ⟨h2, tl⟩⟩
    · simp [parseCsvToRows, hl] at hrow
    · simp [parseCsvToRows, hl] at hrow
    · simp only [parseCsvToRows, hl] at hrow ⊢
      rcases List.mem_map.mp hrow with ⟨line, _, rfl⟩
      constructor
      · intro h hh
        rw [rowLookup_isSome_iff, mkRow, rowKeys_mkRowAux]
        exact (mem_dedupInto _ _ _).mpr (Or.inr hh)
      · intro h hh
        rw [mkRow, rowLookup_mkRowAux_notMem _ _ _ _ _ hh]
        rfl
  · intro headers vals hnd j hj
    rw [mkRow, rowLookup_mkRowAux_nodup _ _ _ _ hnd j hj, Nat.zero_add]

/-- Witness for C8: a data line with fewer fields than headers maps the
missing column to `""`, and a one-line input yields nothing. -/
theorem csv_row_entries_witness :
    (parseCsvToRows "only,one,line" = ([], [])) ∧
    rowLookup (mkRow ["a", "b"] ["1"]) (["a", "b"].get ⟨1, by decide⟩) =
      some (.str "") := by
  have h := csv_row_entries "only,one,line"
  have hnb : nonBlankLines "only,one,line" = ["only,one,line"] := by
    with_unfolding_all rfl
  refine ⟨h.1 (by rw [hnb]; decide), ?_⟩
  rw [h.2.2 ["a", "b"] ["1"] (by decide) 1 (by decide)]
  with_unfolding_all rfl

-- ── Claim theorems: enrichment ───────────────────────────────────────────────

/-- C5: `enrichWithEngagement` is idempotent; the `engagement` column appears
at most once (never duplicated); and when a `likeCount`-like and a
`viewCount`-like header exist and the column is absent, every row gains
`engagement = likes / views` (to 6 decimals) when `views > 0`, else null. -/
theorem enrichWithEngagement_idem (rows : List Row) (headers : List String) :
    (enrichWithEngagement (enrichWithEngagement rows headers).1
        (enrichWithEngagement rows headers).2 = enrichWithEngagement rows headers) ∧
    ((enrichWithEngagement rows headers).2.count "engagement" ≤
        max (headers.count "engagement") 1) ∧
    (∀ lc vc, headers.find? (regexTestCI "likecount") = some lc →
        headers.find? (regexTestCI "viewcount") = some vc →
        "engagement" ∉ headers → rows ≠ [] →
        (enrichWithEngagement rows headers).2 = headers ++ ["engagement"] ∧
        ∀ i, i < rows.length →
          rowLookup ((enrichWithEngagement rows headers).1.getD i []) "engagement" =
            some (match jsParseFloat ((rowLookup (rows.getD i []) lc).getD .null),
                        jsParseFloat ((rowLookup (rows.getD i []) vc).getD .null) with
                  | some likes, some views =>
                      if 0 < views then .num (jsToFixed6 (likes / views)) else .null
                  | _, _ => .null)) := by
  by_cases h0 : rows.isEmpty
  · have he : enrichWithEngagement rows headers = (rows, headers) := by
      rw [enrichWithEngagement, if_pos h0]
    refine ⟨by rw [he]; exact he, by rw [he]; exact le_max_left _ _, ?_⟩
    intro _ _ _ _ _ hrne
    exact absurd (List.isEmpty_iff.mp h0) hrne
  · have hbody : enrichWithEngagement rows headers =
        (match headers.find? (regexTestCI "likecount"),
               headers.find? (regexTestCI "viewcount") with
         | some likeCol, some viewCol =>
             if "engagement" ∈ headers then (rows, headers)
             else (rows.map (fun r => objInsert r "engagement"
                    (engagementCell likeCol viewCol r)),
                   headers ++ ["engagement"])
         | _, _ => (rows, headers)) := by
      rw [enrichWithEngagement, if_neg h0]
    rcases hfl : headers.find? (regexTestCI "likecount") with _ | lc
    · have he : enrichWithEngagement rows headers = (rows, headers) := by
        rw [hbody, hfl]
      refine ⟨by rw [he]; exact he, by rw [he]; exact le_max_left _ _, ?_⟩
      intro lc' vc' hfl' _ _ _
      cases hfl'
    · rcases hfv : headers.find? (regexTestCI "viewcount") with _ | vc
      · have he : enrichWithEngagement rows headers = (rows, headers) := by
          rw [hbody, hfl, hfv]
        refine ⟨by rw [he]; exact he, by rw [he]; exact le_max_left _ _, ?_⟩
        intro lc' vc' _ hfv' _ _
        cases hfv'
      · by_cases hmem : "engagement" ∈ headers
        · have he : enrichWithEngagement rows headers = (rows, headers) := by
            rw [hbody, hfl, hfv]
            show (if "engagement" ∈ headers then (rows, headers) else _) = _
            rw [if_pos hmem]
          refine ⟨by rw [he]; exact he, by rw [he]; exact le_max_left _ _, ?_⟩
          intro lc' vc' _ _ hmem' _
          exact absurd hmem hmem'
        · have he : enrichWithEngagement rows headers =
              (rows.map (fun r => objInsert r "engagement"
                  (engagementCell lc vc r)),
               headers ++ ["engagement"]) := by
            rw [hbody, hfl, hfv]
            show (if "engagement" ∈ headers then (rows, headers) else _) = _
            rw [if_neg hmem]
          have hne : ((rows.map (fun r => objInsert r "engagement"
              (engagementCell lc vc r))).isEmpty) = false := by
            rcases rows with _ | ⟨r, t⟩
            · simp at h0
            · rfl
          have hfl2 : (headers ++ ["engagement"]).find? (regexTestCI "likecount") =
              some lc := by
            rw [List.find?_append, hfl]; rfl
          have hfv2 : (headers ++ ["engagement"]).find? (regexTestCI "viewcount") =
              some vc := by
            rw [List.find?_append, hfv]; rfl
          have hmem2 : "engagement" ∈ headers ++ ["engagement"] :=
            List.mem_append.mpr (Or.inr (List.mem_singleton.mpr rfl))
          refine ⟨?_, ?_, ?_⟩
          · rw [he]
            show enrichWithEngagement _ _ = _
            rw [enrichWithEngagement, if_neg (by rw [hne]; simp), hfl2, hfv2]
            show (if "engagement" ∈ headers ++ ["engagement"] then _ else _) = _
            rw [if_pos hmem2]
          · rw [he]
            show (headers ++ ["engagement"]).count "engagement" ≤ _
            rw [List.count_append, List.count_eq_zero.mpr hmem]
            simp
          · intro lc' vc' hfl' hfv' _ _
            cases hfl'
            cases hfv'
            refine ⟨by rw [he], fun i hi => ?_⟩
            rw [he]
            show rowLookup ((rows.map (fun r => objInsert r "engagement"
              (engagementCell lc vc r))).getD i []) "engagement" = _
            rw [List.getD_eq_getElem?_getD, List.getElem?_map,
              List.getElem?_eq_getElem hi]
            show rowLookup (objInsert (rows[i]) "engagement"
              (engagementCell lc vc (rows[i]))) "engagement" = _
            rw [rowLookup_objInsert, if_pos rfl,
              show rows.getD i [] = rows[i] by
                rw [List.getD_eq_getElem?_getD, List.getElem?_eq_getElem hi]; rfl]
            rfl

/-- Witness data for C5: one row with view and like counts. -/
def enrichSampleRows : List Row := [[("viewCount", .str "10"), ("likeCount", .str "4")]]

/-- Witness for C5: on a concrete dataset, `engagement` equals `likes/views`
and a second enrichment is a no-op. -/
theorem enrichWithEngagement_idem_witness :
    (enrichWithEngagement
        (enrichWithEngagement enrichSampleRows ["viewCount", "likeCount"]).1
        (enrichWithEngagement enrichSampleRows ["viewCount", "likeCount"]).2 =
      enrichWithEngagement enrichSampleRows ["viewCount", "likeCount"]) ∧
    rowLookup ((enrichWithEngagement enrichSampleRows
        ["viewCount", "likeCount"]).1.getD 0 []) "engagement" =
      some (.num (2/5)) := by
  have h := enrichWithEngagement_idem enrichSampleRows ["viewCount", "likeCount"]
  refine ⟨h.1, ?_⟩
  have h3 := (h.2.2 "likeCount" "viewCount" (by with_unfolding_all rfl)
    (by with_unfolding_all rfl) (by decide) (List.cons_ne_nil _ _)).2 0 (by decide)
  rw [h3]
  with_unfolding_all rfl

-- ── Claim theorems: orchestrator loop ────────────────────────────────────────

theorem csvLoopAux_sent_le (exec : String → Args → JVal) (oracle : ℕ → ModelResp) :
    ∀ (fuel : ℕ) (resp : ModelResp) (charts : List JVal) (calls : List ToolCallRec)
      (sent : List SentFR),
      (csvLoopAux exec oracle fuel resp charts calls sent).sent.length ≤
        sent.length + fuel := by
  intro fuel
  induction fuel with
  | zero => intro resp charts calls sent; simp [csvLoopAux]
  | succ n ih =>
      intro resp charts calls sent
      rw [csvLoopAux]
      rcases hfc : findFuncCall resp with _ | ⟨name, args⟩
      · simp
      · simp only []
        split
        · simp
        · exact le_trans (ih _ _ _ _)
            (by simp only [List.length_append, List.length_singleton]; omega)

/-- C2: The tool-calling loop of `chatWithCsvTools` performs at most 5
round-trips (tool execution + function-response message to the model) per
turn, for every executor and every sequence of model responses. -/
theorem chatWithCsvTools_round_limit (exec : String → Args → JVal) (r0 : ModelResp)
    (oracle : ℕ → ModelResp) :
    (chatWithCsvTools exec r0 oracle).sent.length ≤ 5 := by
  have h := csvLoopAux_sent_le exec oracle 5 r0 [] [] []
  simpa using h

/-- Is this JS value an object? -/
def isObjV : JVal → Bool
  | .obj _ => true
  | _ => false

theorem rowLookup_filter_self (fs : Row) (k : String) :
    rowLookup (fs.filter (fun p => p.1 ≠ k)) k = none := by
  induction fs with
  | nil => rfl
  | cons a t ih =>
      by_cases h : a.1 = k
      · simpa [List.filter_cons, h] using ih
      · rw [List.filter_cons, if_pos (by simpa using h)]
        show (if k = a.1 then some a.2 else _) = _
        rw [if_neg (fun he => h he.symm), ih]

theorem rowLookup_filter_other (fs : Row) (k k' : String) (h : k' ≠ k) :
    rowLookup (fs.filter (fun p => p.1 ≠ k)) k' = rowLookup fs k' := by
  induction fs with
  | nil => rfl
  | cons a t ih =>
      by_cases ha : a.1 = k
      · rw [List.filter_cons, if_neg (by simpa using ha)]
        rw [ih, rowLookup, if_neg (fun he => h (he.trans ha))]
      · rw [List.filter_cons, if_pos (by simpa using ha)]
        show (if k' = a.1 then some a.2 else _) = _
        rw [rowLookup]
        by_cases hk : k' = a.1
        · rw [if_pos hk, if_pos hk]
        · rw [if_neg hk, if_neg hk, ih]

theorem csvLoopAux_sent_sanitized (exec : String → Args → JVal) (oracle : ℕ → ModelResp)
    (hexec : ∀ n a, isObjV (exec n a) = true) :
    ∀ (fuel : ℕ) (resp : ModelResp) (charts : List JVal) (calls : List ToolCallRec)
      (sent : List SentFR),
      (∀ m ∈ sent, objGet m.result "inlineData" = none) →
      ∀ m ∈ (csvLoopAux exec oracle fuel resp charts calls sent).sent,
        objGet m.result "inlineData" = none := by
  intro fuel
  induction fuel with
  | zero => intro resp charts calls sent hs; exact hs
  | succ n ih =>
      intro resp charts calls sent hs
      rw [csvLoopAux]
      rcases hfc : findFuncCall resp with _ | ⟨name, args⟩
      · exact hs
      · have hnew : ∀ m ∈ sent ++ [(⟨name, sanitizeResult (exec name args)⟩ : SentFR)],
            objGet m.result "inlineData" = none := by
          intro m hm
          rcases List.mem_append.mp hm with hm | hm
          · exact hs m hm
          · rw [List.mem_singleton.mp hm]
            have hobj := hexec name args
            rcases hv : exec name args with s | q | b | _ | xs | fs <;>
              rw [hv] at hobj <;> try cases hobj
            show objGet (sanitizeResult (.obj fs)) "inlineData" = none
            show rowLookup (fs.filter (fun p => p.1 ≠ "inlineData")) "inlineData" = none
            exact rowLookup_filter_self fs "inlineData"
        simp only []
        split
        · exact hnew
        · exact ih _ _ _ _ hnew

/-- C1: Every function-response object `chatWithCsvTools` sends back to the
model is the rest-destructured tool result without its `inlineData` field:
the inline binary never reaches the model, while every other (metadata)
field survives sanitization unchanged. -/
theorem chatWithCsvTools_strips_inlineData (exec : String → Args → JVal)
    (r0 : ModelResp) (oracle : ℕ → ModelResp)
    (hexec : ∀ n a, isObjV (exec n a) = true) :
    (∀ m ∈ (chatWithCsvTools exec r0 oracle).sent,
      objGet m.result "inlineData" = none) ∧
    (∀ (fs : List (String × JVal)) (k : String), k ≠ "inlineData" →
      objGet (sanitizeResult (.obj fs)) k = objGet (.obj fs) k) := by
  constructor
  · exact csvLoopAux_sent_sanitized exec oracle hexec 5 r0 [] [] [] (by intro m hm; cases hm)
  · intro fs k hk
    exact rowLookup_filter_other fs "inlineData" k hk

-- Concrete fixture: a `generateImage`-style executor returning inline binary.

/-- A tool result carrying inline base64 image bytes. -/
def imgToolResult : JVal :=
  .obj [("inlineData", .obj [("mimeType", .str "image/jpeg"), ("data", .str "QUJD")]),
    ("_chartType", .str "generatedImage"), ("url", .str "https://img.example/x.jpg"),
    ("fileName", .str "x.jpg")]

/-- Executor fixture returning `imgToolResult` for every call. -/
def imgExec : String → Args → JVal := fun _ _ => imgToolResult

/-- First model response fixture: one `generateImage` function call. -/
def imgR0 : ModelResp := ⟨[.fcPart "generateImage" [("prompt", .str "a cozy cabin")]], ""⟩

/-- Oracle fixture: the model stops calling tools after the first response. -/
def imgOracle : ℕ → ModelResp := fun _ => ⟨[], "Here is your image!"⟩

/-- Witness for C1: in a concrete turn, the function response relayed to the
model contains no `inlineData` field. -/
theorem chatWithCsvTools_strips_inlineData_witness :
    objGet (((chatWithCsvTools imgExec imgR0 imgOracle).sent.headD
      ⟨"", .null⟩).result) "inlineData" = none := by
  have hsent : (chatWithCsvTools imgExec imgR0 imgOracle).sent.headD ⟨"", .null⟩ ∈
      (chatWithCsvTools imgExec imgR0 imgOracle).sent := by
    rw [show (chatWithCsvTools imgExec imgR0 imgOracle).sent =
      [⟨"generateImage", sanitizeResult imgToolResult⟩] from by with_unfolding_all rfl]
    exact List.mem_singleton.mpr rfl
  exact (chatWithCsvTools_strips_inlineData imgExec imgR0 imgOracle
    (fun _ _ => rfl)).1 _ hsent

theorem csvLoopAux_calls_raw (exec : String → Args → JVal) (oracle : ℕ → ModelResp) :
    ∀ (fuel : ℕ) (resp : ModelResp) (charts : List JVal) (calls : List ToolCallRec)
      (sent : List SentFR),
      (∀ rec ∈ calls, rec.result = exec rec.name rec.args) →
      ∀ rec ∈ (csvLoopAux exec oracle fuel resp charts calls sent).toolCalls,
        rec.result = exec rec.name rec.args := by
  intro fuel
  induction fuel with
  | zero => intro resp charts calls sent hs; exact hs
  | succ n ih =>
      intro resp charts calls sent hs
      rw [csvLoopAux]
      rcases hfc : findFuncCall resp with _ | ⟨name, args⟩
      · exact hs
      · have hnew : ∀ rec ∈ calls ++ [(⟨name, args, exec name args⟩ : ToolCallRec)],
            rec.result = exec rec.name rec.args := by
          intro rec hm
          rcases List.mem_append.mp hm with hm | hm
          · exact hs rec hm
          · rw [List.mem_singleton.mp hm]
        simp only []
        split
        · exact hnew
        · exact ih _ _ _ _ hnew

/-- C10: The tool-call log stores the raw, unsanitized executor result for
every invocation (inline binary included), and the log is returned verbatim
and handed unchanged to persistence when non-empty. -/
theorem chatWithCsvTools_logs_raw (exec : String → Args → JVal) (r0 : ModelResp)
    (oracle : ℕ → ModelResp) :
    (∀ rec ∈ (chatWithCsvTools exec r0 oracle).toolCalls,
      rec.result = exec rec.name rec.args) ∧
    ((chatWithCsvTools exec r0 oracle).toolCalls ≠ [] →
      persistedToolCalls (chatWithCsvTools exec r0 oracle) =
        some (chatWithCsvTools exec r0 oracle).toolCalls) := by
  constructor
  · exact csvLoopAux_calls_raw exec oracle 5 r0 [] [] [] (by intro rec hm; cases hm)
  · intro h
    rw [persistedToolCalls, if_neg (by simpa [List.isEmpty_iff] using h)]

/-- Witness for C10: in the concrete `generateImage` turn, the logged record
holds the raw result — whose `inlineData` is still present — while the
relayed copy was stripped (see the C1 witness). -/
theorem chatWithCsvTools_logs_raw_witness :
    ((chatWithCsvTools imgExec imgR0 imgOracle).toolCalls.headD
      ⟨"", [], .null⟩).result =
      imgExec "generateImage" [("prompt", .str "a cozy cabin")] := by
  have hmem : (chatWithCsvTools imgExec imgR0 imgOracle).toolCalls.headD ⟨"", [], .null⟩ ∈
      (chatWithCsvTools imgExec imgR0 imgOracle).toolCalls := by
    rw [show (chatWithCsvTools imgExec imgR0 imgOracle).toolCalls =
      [⟨"generateImage", [("prompt", .str "a cozy cabin")], imgToolResult⟩] from by
        with_unfolding_all rfl]
    exact List.mem_singleton.mpr rfl
  have h := (chatWithCsvTools_logs_raw imgExec imgR0 imgOracle).1 _ hmem
  rw [h]
  rw [show ((chatWithCsvTools imgExec imgR0 imgOracle).toolCalls.headD
      ⟨"", [], .null⟩).name = "generateImage" from by with_unfolding_all rfl,
    show ((chatWithCsvTools imgExec imgR0 imgOracle).toolCalls.headD
      ⟨"", [], .null⟩).args = [("prompt", .str "a cozy cabin")] from by
        with_unfolding_all rfl]

-- ── Claim theorems: streaming cancellation ───────────────────────────────────

/-- The text of a stream event, when it is a text chunk. -/
def textOfEv : StreamEvent → Option String
  | .textEv s => some s
  | _ => none

/-- Is this event a streamed text chunk? -/
def isTextEv : StreamEvent → Bool
  | .textEv _ => true
  | _ => false

/-- Concatenation of a list of strings, in order. -/
def concatList : List String → String
  | [] => ""
  | s :: t => s ++ concatList t

theorem consumeStreamAux_stop (evs : List StreamEvent) :
    ∀ (k i : ℕ) (st : StreamState), (∀ e ∈ evs.take k, isTextEv e = true) →
      consumeStreamAux (some (i + k)) i st evs =
        { st with fullContent := st.fullContent ++ concatList ((evs.take k).filterMap textOfEv) } := by
  induction evs with
  | nil =>
      intro k i st _
      show st = _
      simp [concatList]
  | cons e rest ih =>
      intro k i st htext
      match k with
      | 0 =>
          rw [consumeStreamAux, if_pos (by simp [abortReads])]
          simp [concatList]
      | k + 1 =>
          have he : isTextEv e = true := htext e (by simp)
          rcases e with s | ps | d
          · rw [consumeStreamAux,
              if_neg (by simp only [abortReads, decide_eq_true_eq]; omega)]
            have harg : i + (k + 1) = (i + 1) + k := by omega
            rw [harg, ih k (i + 1) _ (fun x hx => htext x (List.mem_cons_of_mem _ (by
              simpa using hx)))]
            have hTake : (List.take (k + 1) (StreamEvent.textEv s :: rest)).filterMap textOfEv =
                s :: ((rest.take k).filterMap textOfEv) := by
              simp [textOfEv]
            rw [hTake, concatList]
            simp [applyChunk, String.append_assoc]
          · cases he
          · cases he

/-- C3: If the stop flag is set after the consumer has applied `k` streamed
text chunks, the persisted assistant content is exactly the concatenation of
those `k` chunks in delivery order — buffered partial text is kept, nothing
is rolled back, and no structured parts replace it. -/
theorem handleSend_stop_persists_chunks (events : List StreamEvent) (k : ℕ)
    (htext : ∀ e ∈ events.take k, isTextEv e = true) :
    savedContent (consumeStream events (some k)) =
      concatList ((events.take k).filterMap textOfEv) ∧
    (consumeStream events (some k)).structuredParts = none := by
  have h0 : (0 : ℕ) + k = k := Nat.zero_add k
  have h := consumeStreamAux_stop events k 0 {} htext
  rw [h0] at h
  rw [consumeStream, h]
  refine ⟨?_, rfl⟩
  show "" ++ concatList ((events.take k).filterMap textOfEv) =
    concatList ((events.take k).filterMap textOfEv)
  simp

/-- Stream fixture: five text chunks. -/
def fiveChunks : List StreamEvent :=
  [.textEv "Hel", .textEv "lo ", .textEv "wor", .textEv "ld", .textEv "!"]

/-- Witness for C3: cancelling after 2 of 5 chunks persists exactly the first
two chunks, concatenated. -/
theorem handleSend_stop_persists_chunks_witness :
    savedContent (consumeStream fiveChunks (some 2)) = "Hello " := by
  have h := (handleSend_stop_persists_chunks fiveChunks 2 (by decide)).1
  rw [h]
  with_unfolding_all rfl

-- ── Claim theorems: system-prompt cache ──────────────────────────────────────

/-- C7 counterexample: in a process whose fetches always fail, two calls to
`loadSystemPrompt` perform two fetches — the resource is *not* fetched at
most once per process lifetime, because the guard `if (cachedPrompt)` treats
the cached empty string as absent and fetches again. -/
theorem loadSystemPrompt_fetch_twice :
    fetchCount (runLoad (fun _ => FetchOutcome.fails) 2).2 = 2 := by
  with_unfolding_all rfl

/-- C7 (amended): once a call has cached a nonempty instruction, no later
call fetches again and all return the cached value unchanged (never
invalidated); a process whose first fetch succeeds with a nonempty body
fetches exactly once over any number of calls; and a failed fetch yields the
empty string (non-fatal) while leaving the cache falsy. -/
theorem loadSystemPrompt_cache_behavior :
    (∀ (f : ℕ → FetchOutcome) (i n : ℕ) (s : String), s ≠ "" →
        fetchCount (runLoadAux f i (some s) n).2 = 0 ∧
        ∀ c ∈ (runLoadAux f i (some s) n).2, c = (s, false)) ∧
    (∀ (f : ℕ → FetchOutcome) (i n : ℕ) (b : String),
        f i = FetchOutcome.resp true b → b.trim ≠ "" →
        fetchCount (runLoadAux f i none (n + 1)).2 = 1 ∧
        ∀ c ∈ (runLoadAux f i none (n + 1)).2, c.1 = b.trim) ∧
    loadSystemPromptCall .fails none = ("", some "", true) ∧
    loadSystemPromptCall .fails (some "") = ("", some "", true) := by
  have hcached : ∀ (f : ℕ → FetchOutcome) (i n : ℕ) (s : String), s ≠ "" →
      fetchCount (runLoadAux f i (some s) n).2 = 0 ∧
      ∀ c ∈ (runLoadAux f i (some s) n).2, c = (s, false) := by
    intro f i n
    induction n generalizing i with
    | zero => intro s hs; exact ⟨rfl, by intro c hc; cases hc⟩
    | succ n ih =>
        intro s hs
        have hcall : loadSystemPromptCall (f i) (some s) = (s, some s, false) := by
          rw [loadSystemPromptCall.eq_def]
          simp [hs]
        rw [runLoadAux, hcall]
        rcases ih (i + 1) s hs with ⟨hc, hall⟩
        constructor
        · simp only [fetchCount] at hc ⊢
          simp [hc]
        · intro c hcm
          rcases List.mem_cons.mp hcm with rfl | hcm
          · rfl
          · exact hall c hcm
  refine ⟨hcached, ?_, rfl, rfl⟩
  intro f i n b hf hb
  have hcall : loadSystemPromptCall (f i) none = (b.trim, some b.trim, true) := by
    rw [hf, loadSystemPromptCall.eq_def]
    simp
  rw [runLoadAux, hcall]
  rcases hcached f (i + 1) n b.trim hb with ⟨hc, hall⟩
  constructor
  · simp only [fetchCount] at hc ⊢
    simp [hc]
  · intro c hcm
    rcases List.mem_cons.mp hcm with rfl | hcm
    · rfl
    · rw [hall c hcm]

/-- Witness for C7 (amended): with a first fetch returning "Be helpful.",
two calls fetch exactly once and both return the instruction. -/
theorem loadSystemPrompt_cache_behavior_witness :
    fetchCount (runLoad (fun _ => FetchOutcome.resp true "Be helpful.") 2).2 = 1 := by
  have htrim : ("Be helpful." : String).trim = "Be helpful." := by
    with_unfolding_all rfl
  exact (loadSystemPrompt_cache_behavior.2.1
    (fun _ => FetchOutcome.resp true "Be helpful.") 0 1 "Be helpful." rfl
    (by rw [htrim]; decide)).1

-- ── Claim theorems: column statistics ────────────────────────────────────────

/-- Four rows whose `viewCount` values are 1, 2, 3, 4. -/
def statsRows : List Row :=
  [[("viewCount", .str "1")], [("viewCount", .str "2")],
   [("viewCount", .str "3")], [("viewCount", .str "4")]]

/-- Stand-in for `Math.sqrt` at the one point these runs evaluate it:
`Math.sqrt(1.25)` as a double is `1.1180339887498949`, which agrees with
this constant to 10 decimal places — far inside every rounding slack used
below. -/
def sqrtStandIn : ℚ → ℚ := fun _ => 1.1180339887

/-- Concrete environment for closed evaluations. -/
def statsEnvC : StatsEnv := ⟨sqrtStandIn, .netErr "", fun _ => 0⟩

/-- C4 counterexample: the older `compute_stats_json` copy (shipped beside
`gemini.js`) rounds `std` with `Math.round(x*100)/100`: on values
`[1,2,3,4]` it reports `std = 1.12`, not the claimed 4-decimal `1.1180`,
and its zero-numeric error names no columns. -/
theorem computeStatsJsonV1_two_decimal_std :
    objGet (computeStatsJsonV1 [("field", .str "viewCount")] statsRows statsEnvC)
        "std" = some (.num (28/25)) ∧
    (28/25 : ℚ) ≠ (1.1180 : ℚ) ∧
    computeStatsJsonV1 [("field", .str "zz")] [[("a", .str "x")]] statsEnvC =
      .obj [("error", .str "No numeric data for zz")] := by
  refine ⟨by with_unfolding_all rfl, by norm_num, by with_unfolding_all rfl⟩

/-- C4 (amended): the current `executeTool`'s `compute_column_stats` and
`compute_stats_json` on values `[1,2,3,4]` return count 4, mean 2.5,
median 2.5, std 1.1180 (4 decimal places), min 1, max 4, and an error
naming the available columns when no numeric values resolve; the older
`compute_stats_json` copy instead rounds std to 2 decimals (1.12).  The
hypotheses pin the `Math.sqrt` parameter to the true value of √1.25 within
a generous slack. -/
theorem compute_stats_on_1234 (env : StatsEnv)
    (h1 : (1.1180 : ℚ) ≤ env.sqrtQ (5/4)) (h2 : env.sqrtQ (5/4) ≤ (1.11804 : ℚ)) :
    executeTool "compute_column_stats" [("column", .str "viewCount")]
        (.arrRows statsRows) {} env =
      .ok (.obj [("column", .str "viewCount"), ("count", .num 4), ("mean", .num (5/2)),
        ("median", .num (5/2)), ("std", .num (1.1180 : ℚ)),
        ("min", .num 1), ("max", .num 4)]) ∧
    executeTool "compute_stats_json" [("field", .str "viewCount")]
        (.arrRows statsRows) {} env =
      .ok (.obj [("field", .str "viewCount"), ("count", .num 4), ("mean", .num (5/2)),
        ("median", .num (5/2)), ("std", .num (1.1180 : ℚ)),
        ("min", .num 1), ("max", .num 4)]) ∧
    executeTool "compute_column_stats" [("column", .str "zz")]
        (.arrRows [[("a", .str "x"), ("b", .str "y")]]) {} env =
      .ok (.obj [("error",
        .str "No numeric values found in column \"zz\". Available columns: a, b")]) ∧
    objGet (computeStatsJsonV1 [("field", .str "viewCount")] statsRows env) "std" =
      some (.num (1.12 : ℚ)) := by
  have h0 : (0 : ℚ) ≤ env.sqrtQ (5/4) := by linarith
  have hfmt : fmt (env.sqrtQ (5/4)) = (1.1180 : ℚ) := by
    rw [fmt, jsToFixed4, if_pos h0]
    have hfl : ⌊env.sqrtQ (5/4) * 10000 + 1/2⌋ = (11180 : ℤ) := by
      rw [Int.floor_eq_iff]
      constructor <;> push_cast <;> linarith
    rw [hfl]
    norm_num
  have hr2 : ((jsMathRound (env.sqrtQ (5/4) * 100) : ℚ) / 100) = (1.12 : ℚ) := by
    have hfl : jsMathRound (env.sqrtQ (5/4) * 100) = (112 : ℤ) := by
      rw [jsMathRound, Int.floor_eq_iff]
      constructor <;> push_cast <;> linarith
    rw [hfl]
    norm_num
  refine ⟨?_, ?_, by with_unfolding_all rfl, ?_⟩
  · have hstep : executeTool "compute_column_stats" [("column", .str "viewCount")]
        (.arrRows statsRows) {} env =
      .ok (.obj [("column", .str "viewCount"), ("count", .num 4), ("mean", .num (5/2)),
        ("median", .num (5/2)), ("std", .num (fmt (env.sqrtQ (5/4)))),
        ("min", .num 1), ("max", .num 4)]) := by
      with_unfolding_all rfl
    rw [hstep, hfmt]
  · have hstep : executeTool "compute_stats_json" [("field", .str "viewCount")]
        (.arrRows statsRows) {} env =
      .ok (.obj [("field", .str "viewCount"), ("count", .num 4), ("mean", .num (5/2)),
        ("median", .num (5/2)), ("std", .num (fmt (env.sqrtQ (5/4)))),
        ("min", .num 1), ("max", .num 4)]) := by
      with_unfolding_all rfl
    rw [hstep, hfmt]
  · have hstep : objGet (computeStatsJsonV1 [("field", .str "viewCount")]
        statsRows env) "std" =
      some (.num ((jsMathRound (env.sqrtQ (5/4) * 100) : ℚ) / 100)) := by
      with_unfolding_all rfl
    rw [hstep, hr2]

/-- Witness for C4's amended statement at the concrete `Math.sqrt` stand-in. -/
theorem compute_stats_on_1234_witness :
    executeTool "compute_column_stats" [("column", .str "viewCount")]
        (.arrRows statsRows) {} statsEnvC =
      .ok (.obj [("column", .str "viewCount"), ("count", .num 4), ("mean", .num (5/2)),
        ("median", .num (5/2)), ("std", .num (1.1180 : ℚ)),
        ("min", .num 1), ("max", .num 4)]) := by
  have hq : statsEnvC.sqrtQ (5/4) = 1.1180339887 := rfl
  exact (compute_stats_on_1234 statsEnvC (by rw [hq]; norm_num)
    (by rw [hq]; norm_num)).1

-- ── Claim theorems: executor totality ────────────────────────────────────────

/-- The tool names `executeTool` dispatches on. -/
def knownTools : List String :=
  ["compute_column_stats", "get_value_counts", "get_top_items", "generateImage",
   "plot_metric_vs_time", "play_video", "compute_stats_json"]

/-- Is this JS value a string? -/
def isStrVal : JVal → Bool
  | .str _ => true
  | _ => false

theorem exbind_ok {α β : Type} (a : α) (f : α → Except Unit β) :
    ((Except.ok a : Except Unit α) >>= f) = f a := rfl

theorem if_pure_ok {β : Type} (c : Prop) [Decidable c] (a b : β) :
    ∃ v, (if c then (pure a : Except Unit β) else pure b) = Except.ok v := by
  split
  · exact ⟨_, rfl⟩
  · exact ⟨_, rfl⟩

theorem rowLookup_some_mem (r : Row) (k : String) (v : JVal)
    (h : rowLookup r k = some v) : ∃ p ∈ r, p.2 = v := by
  induction r with
  | nil => cases h
  | cons a t ih =>
      rcases a with ⟨a1, a2⟩
      rw [rowLookup] at h
      by_cases hk : k = a1
      · rw [if_pos hk] at h
        exact ⟨(a1, a2), List.mem_cons_self _ _, Option.some.inj h⟩
      · rw [if_neg hk] at h
        rcases ih h with ⟨p, hp, hpv⟩
        exact ⟨p, List.mem_cons_of_mem _ hp, hpv⟩

theorem resolveCol_ok_of_str (rows : List Row) (o : Option JVal)
    (h : ∀ v, o = some v → isStrVal v = true) :
    ∃ c, resolveCol rows o = .ok c := by
  by_cases hc : rows.isEmpty = true ∨ ¬ truthyO o = true
  · exact ⟨o, by unfold resolveCol; rw [if_pos hc]⟩
  · rcases o with _ | v
    · exact absurd (Or.inr (by simp [truthyO])) hc
    · have hv := h v rfl
      rcases v with s | q | b | _ | xs | fs
      · unfold resolveCol
        rw [if_neg hc]
        show ∃ c, (if s ∈ rowKeys (rows.headD []) then Except.ok (some (JVal.str s))
          else match (rowKeys (rows.headD [])).find? (fun k => normCol k = normCol s) with
            | some k => Except.ok (some (JVal.str k))
            | none => Except.ok (some (JVal.str s))) = Except.ok c
        split
        · exact ⟨_, rfl⟩
        · split
          · exact ⟨_, rfl⟩
          · exact ⟨_, rfl⟩
      all_goals simp [isStrVal] at hv

theorem titleQueryOf_ok_of_str (o : Option JVal)
    (h : ∀ v, o = some v → isStrVal v = true) :
    ∃ s, titleQueryOf o = .ok s := by
  rcases o with _ | v
  · exact ⟨"", rfl⟩
  · have hv := h v rfl
    rcases v with s | q | b | _ | xs | fs
    · rw [titleQueryOf]
      by_cases ht : truthy (JVal.str s) = true
      · refine ⟨s.toLower.trim, ?_⟩
        show (if truthy (JVal.str s) = true then Except.ok s.toLower.trim
          else Except.ok "") = Except.ok s.toLower.trim
        rw [if_pos ht]
      · refine ⟨"", ?_⟩
        show (if truthy (JVal.str s) = true then Except.ok s.toLower.trim
          else Except.ok "") = Except.ok ""
        rw [if_neg ht]
    all_goals simp [isStrVal] at hv

theorem statsBody_ok (env : StatsEnv) (keyName wordPlace : String) (safeRows : List Row)
    (availableHeaders : List String) (nameArg : Option JVal)
    (h : ∃ c, resolveCol safeRows nameArg = .ok c) :
    ∃ v, statsBody env keyName wordPlace safeRows availableHeaders nameArg = .ok v := by
  rcases h with ⟨c, hc⟩
  unfold statsBody
  rw [hc, exbind_ok]
  simp only []
  split
  · exact ⟨_, rfl⟩
  · exact ⟨_, rfl⟩

/-- C9 counterexample: `executeTool` can throw for exotic argument objects —
a numeric `column` value reaches `name.toLowerCase()` inside `resolveCol`
and raises a `TypeError` (modelled by `.error`), so the executor is not
total over every arguments object. -/
theorem executeTool_throws_on_numeric_column :
    executeTool "compute_column_stats" [("column", .num 5)]
      (.arrRows [[("a", .str "1")]]) {} statsEnvC = .error () := by
  with_unfolding_all rfl

/-- C9 (amended): for every tool name, every arguments object whose field
values are strings (as the declared STRING-typed schemas produce), and every
rows value, `executeTool` returns a plain result or error object and never
throws; an unknown tool name yields `{error: "Unknown tool: <name>"}`; and a
non-array rows value is replaced by the empty list. -/
theorem executeTool_total_on_string_args (name : String) (args : Args)
    (rows : RowsArg) (ctx : ToolCtx) (env : StatsEnv) :
    ((∀ p ∈ args, isStrVal p.2 = true) →
      ∃ v, executeTool name args rows ctx env = .ok v) ∧
    (name ∉ knownTools →
      executeTool name args rows ctx env =
        .ok (.obj [("error", .str ("Unknown tool: " ++ name))])) ∧
    executeTool name args .nonArray ctx env =
      executeTool name args (.arrRows []) ctx env := by
  refine ⟨?_, ?_, rfl⟩
  · intro hargs
    have hget : ∀ k v, argGet args k = some v → isStrVal v = true := by
      intro k v hv
      rcases rowLookup_some_mem args k v hv with ⟨p, hp, hpv⟩
      exact hpv ▸ hargs p hp
    have hres : ∀ k, ∃ c, resolveCol (safeRowsOf rows) (argGet args k) = .ok c :=
      fun k => resolveCol_ok_of_str _ _ (fun v hv => hget k v hv)
    rw [executeTool.eq_def]
    split
    · exact statsBody_ok _ _ _ _ _ _ (hres "column")
    · rcases hres "column" with ⟨c, hc⟩
      unfold_let
      rw [hc, exbind_ok]
      exact ⟨_, rfl⟩
    · rcases hres "sort_column" with ⟨c, hc⟩
      unfold_let
      rw [hc, exbind_ok]
      exact if_pure_ok _ _ _
    · unfold_let
      repeat first | exact ⟨_, rfl⟩ | split
    · rcases hres "metric" with ⟨c1, hc1⟩
      rcases hres "time_column" with ⟨c2, hc2⟩
      unfold_let
      rw [hc1, exbind_ok]
      rw [hc2, exbind_ok]
      repeat first | exact ⟨_, rfl⟩ | split
    · rcases titleQueryOf_ok_of_str (argGet args "title")
        (fun v hv => hget "title" v hv) with ⟨tq, htq⟩
      unfold_let
      rw [htq, exbind_ok]
      repeat first | exact ⟨_, rfl⟩ | split
    · exact statsBody_ok _ _ _ _ _ _ (hres "field")
    · exact ⟨_, rfl⟩
  · intro hname
    rw [executeTool.eq_def]
    split
    all_goals first
      | rfl
      | exact absurd (by decide) hname

/-- Witness for C9 (amended): a string-argument call returns a result, and an
unknown tool name returns the tagged error object. -/
theorem executeTool_total_on_string_args_witness :
    (∃ v, executeTool "get_value_counts" [("column", .str "viewCount")]
      (.arrRows statsRows) {} statsEnvC = .ok v) ∧
    executeTool "frobnicate" [("column", .num 5)] .nonArray {} statsEnvC =
      .ok (.obj [("error", .str "Unknown tool: frobnicate")]) := by
  constructor
  · exact (executeTool_total_on_string_args "get_value_counts"
      [("column", .str "viewCount")] (.arrRows statsRows) {} statsEnvC).1
      (by intro p hp; rcases List.mem_singleton.mp hp with rfl; rfl)
  · exact (executeTool_total_on_string_args "frobnicate"
      [("column", .num 5)] .nonArray {} statsEnvC).2.1 (by decide)

end ChatApp
